import Mathlib

/-!
Verification development for the clinical-trial-screening repository.

The repository ships the frontend (TypeScript types in `types/index.ts`,
React components `PatientForm`, `BatchUpload`, `ResultsDashboard`, and the
API client `services/api.ts`).  The Python eligibility engine
(`backend/app/eligibility_engine.py`) is referenced by the README and the
specification but its source is not part of the available tree, so the
engine-side definitions below are modelled from the specification
(sections 3, 4.1-4.4) and are marked as such; the frontend definitions are
translated directly from the TypeScript sources.

Numbers are modelled as rationals (clinical measurements such as
HbA1c = 11.2 are decimal), strings as Lean `String`.
-/

namespace ClinicalScreening

/-- Criterion statuses, the closed set from `CriterionResult.status` in
`types/index.ts`: `'MET' | 'NOT_MET' | 'EXCLUDES' | 'CLEAR' | 'UNKNOWN'`. -/
inductive CStatus where
  | MET
  | NOT_MET
  | EXCLUDES
  | CLEAR
  | UNKNOWN
deriving DecidableEq, Repr

/-- Overall decisions, from `EligibilityResult.decision` in `types/index.ts`:
`'ELIGIBLE' | 'INELIGIBLE' | 'UNCERTAIN'`. -/
inductive Decision where
  | ELIGIBLE
  | INELIGIBLE
  | UNCERTAIN
deriving DecidableEq, Repr

/-- Modelled from the spec: `kind` of a `CriterionDefinition` (spec section 3)
is one of `RANGE`, `VALUE`, `CONTAINS`, `EXCLUDES`.  The TypeScript
`CriterionBase` carries the corresponding optional bound fields. -/
inductive CriterionKind where
  | RANGE
  | VALUE
  | CONTAINS
  | EXCLUDES
deriving DecidableEq, Repr

/-- A clinical attribute value of a patient record: scalar numeric, scalar
string, or list-of-string (spec section 3, `PatientRecord`). -/
inductive Value where
  | num (q : ℚ)
  | str (s : String)
  | list (xs : List String)
deriving DecidableEq, Repr

/-- Modelled from the spec: `CriterionDefinition` (spec section 3) combined
with the bound fields of the TypeScript `CriterionBase` (`min`, `max`,
`value`, `contains`, `excludes`). -/
structure CriterionDefinition where
  id : String
  text : String
  field : String
  kind : CriterionKind
  min : Option ℚ
  max : Option ℚ
  value : Option String
  contains : List String
  excludes : List String
deriving DecidableEq, Repr

/-- Modelled from the spec: a `PatientRecord` is a sparse mapping of named
clinical attributes to values; any attribute may be absent (spec section 3). -/
structure PatientRec where
  patient_id : String
  fields : List (String × Value)
deriving DecidableEq, Repr

/-- Modelled from the spec: a trial carries ordered inclusion and exclusion
criteria (TypeScript `Trial` in `types/index.ts`). -/
structure TrialDef where
  id : String
  name : String
  inclusion_criteria : List CriterionDefinition
  exclusion_criteria : List CriterionDefinition
deriving DecidableEq, Repr

/-- Structure `CriterionResult` from `types/index.ts`. -/
structure CriterionResult where
  criterion_id : String
  criterion_text : String
  status : CStatus
  actual_value : Option Value
  reason : Option String
deriving DecidableEq, Repr

/-- Structure `EligibilityResult` from `types/index.ts`. -/
structure EligibilityResult where
  decision : Decision
  inclusion_results : List CriterionResult
  exclusion_results : List CriterionResult
  missing_data : List String
  ai_explanation : Option String
  recommendation : Option String
deriving DecidableEq, Repr

/-- Reading a patient attribute by field name (dynamic lookup keyed by
string, spec section 9). -/
def lookupField (p : PatientRec) (f : String) : Option Value :=
  p.fields.lookup f

/-- Lower-casing a string character by character (the ASCII lowering of
`toLowerCase` / `str.lower()`). -/
def strToLower (s : String) : String :=
  String.mk (s.data.map Char.toLower)

/-- Case-insensitive string match (spec section 4.1: equality and list
matching are case-insensitive). -/
def matchesCI (a b : String) : Bool :=
  strToLower a = strToLower b

/-- Modelled from the spec: inclusive bound comparison for `RANGE`
criteria — every set bound must hold (spec section 4.1: "compare numeric
value against `min`/`max` (inclusive bounds)"). -/
def withinBounds (mn mx : Option ℚ) (q : ℚ) : Bool :=
  (match mn with
   | none => true
   | some m => decide (m ≤ q)) &&
  (match mx with
   | none => true
   | some M => decide (q ≤ M))

/-- Which value shapes a criterion kind can read (spec sections 4.1 and 7:
`RANGE` reads a number, `VALUE` a string, `CONTAINS`/`EXCLUDES` a list;
any other shape is a type mismatch treated as `UNKNOWN`). -/
def typeMatches (k : CriterionKind) (v : Value) : Bool :=
  match k, v with
  | .RANGE, .num _ => true
  | .VALUE, .str _ => true
  | .CONTAINS, .list _ => true
  | .EXCLUDES, .list _ => true
  | _, _ => false

/-- Modelled from the spec: the criterion evaluator (spec section 4.1).
An absent field gives `UNKNOWN` for inclusion and exclusion criteria alike;
a present field dispatches on `kind`; an unreadable / type-mismatched value
takes the same `UNKNOWN` path as a missing one (spec section 7); the
evaluator is total — it never raises. -/
def evaluateCriterion (isInclusion : Bool) (c : CriterionDefinition)
    (pf : Option Value) : CStatus :=
  match pf with
  | none => .UNKNOWN
  | some v =>
    match c.kind with
    | .RANGE =>
      match v with
      | .num q =>
        if withinBounds c.min c.max q then
          (if isInclusion then .MET else .EXCLUDES)
        else
          (if isInclusion then .NOT_MET else .CLEAR)
      | _ => .UNKNOWN
    | .VALUE =>
      match v with
      | .str s =>
        match c.value with
        | some target =>
          if matchesCI s target then
            (if isInclusion then .MET else .EXCLUDES)
          else
            (if isInclusion then .NOT_MET else .CLEAR)
        | none => .UNKNOWN
      | _ => .UNKNOWN
    | .CONTAINS =>
      match v with
      | .list xs =>
        if xs.any (fun x => c.contains.any (fun t => matchesCI x t)) then
          .MET
        else
          .NOT_MET
      | _ => .UNKNOWN
    | .EXCLUDES =>
      match v with
      | .list xs =>
        if xs.any (fun x => c.excludes.any (fun t => matchesCI x t)) then
          .EXCLUDES
        else
          .CLEAR
      | _ => .UNKNOWN

/-- Status of one criterion against one patient: read
`patient[criterion.field]`, then evaluate (spec section 4.1). -/
def evalStatus (isInclusion : Bool) (c : CriterionDefinition)
    (p : PatientRec) : CStatus :=
  evaluateCriterion isInclusion c (lookupField p c.field)

/-- The `CriterionResult` produced for one criterion: status plus the echoed
field value (spec section 3). -/
def criterionResult (isInclusion : Bool) (c : CriterionDefinition)
    (p : PatientRec) : CriterionResult :=
  { criterion_id := c.id
    criterion_text := c.text
    status := evalStatus isInclusion c p
    actual_value := lookupField p c.field
    reason := none }

/-- Results of all inclusion criteria, in trial order. -/
def inclusionResults (t : TrialDef) (p : PatientRec) : List CriterionResult :=
  t.inclusion_criteria.map (fun c => criterionResult true c p)

/-- Results of all exclusion criteria, in trial order. -/
def exclusionResults (t : TrialDef) (p : PatientRec) : List CriterionResult :=
  t.exclusion_criteria.map (fun c => criterionResult false c p)

/-- Modelled from the spec: `missing_data` is derived by collecting every
criterion whose result is `UNKNOWN`, tagged by its source field
(spec section 4.2). -/
def missingData (t : TrialDef) (p : PatientRec) : List String :=
  (t.inclusion_criteria.filter
      (fun c => decide (evalStatus true c p = .UNKNOWN))).map (fun c => c.field)
    ++ (t.exclusion_criteria.filter
      (fun c => decide (evalStatus false c p = .UNKNOWN))).map (fun c => c.field)

/-- Modelled from the spec: the decision policy of the aggregator, in strict
priority order (spec section 4.2): INELIGIBLE on any definitive
disqualification, else UNCERTAIN on missing data, else ELIGIBLE. -/
def aggregateDecision (incl excl : List CriterionResult)
    (missing : List String) : Decision :=
  if incl.any (fun r => decide (r.status = .NOT_MET))
      || excl.any (fun r => decide (r.status = .EXCLUDES)) then
    .INELIGIBLE
  else if missing.isEmpty then
    .ELIGIBLE
  else
    .UNCERTAIN

/-- Modelled from the spec: one screening — evaluate all criteria, derive
missing data, aggregate into an `EligibilityResult` (spec sections 4.1-4.2).
The explanation is attached later by the adapter, never here. -/
def screen (t : TrialDef) (p : PatientRec) : EligibilityResult :=
  { decision := aggregateDecision (inclusionResults t p) (exclusionResults t p)
      (missingData t p)
    inclusion_results := inclusionResults t p
    exclusion_results := exclusionResults t p
    missing_data := missingData t p
    ai_explanation := none
    recommendation := none }

/-- Structure `BatchScreeningResult` (one row) from `types/index.ts`. -/
structure BatchRow where
  patient_id : String
  decision : Decision
  summary : String
deriving DecidableEq, Repr

/-- Structure `BatchScreeningResponse` from `types/index.ts`. -/
structure BatchResponse where
  trial_id : String
  total_patients : Nat
  eligible_count : Nat
  ineligible_count : Nat
  uncertain_count : Nat
  results : List BatchRow
deriving DecidableEq, Repr

/-- Modelled from the spec: the short per-row diagnostic summary of the
batch runner (spec section 4.3); its exact wording is not specified. -/
def decisionSummary (r : EligibilityResult) : String :=
  match r.decision with
  | .ELIGIBLE => "all criteria satisfied"
  | .INELIGIBLE => "definitive disqualification"
  | .UNCERTAIN => "missing data"

/-- The row produced for one patient of a batch. -/
def batchRowFor (t : TrialDef) (p : PatientRec) : BatchRow :=
  { patient_id := p.patient_id
    decision := (screen t p).decision
    summary := decisionSummary (screen t p) }

/-- Modelled from the spec: the batch runner (spec section 4.3) — evaluate
each patient independently in input order, then fold the produced sequence
into the aggregate counts; `total_patients` is the input count. -/
def runBatch (t : TrialDef) (ps : List PatientRec) : BatchResponse :=
  let rows := ps.map (fun p => batchRowFor t p)
  { trial_id := t.id
    total_patients := ps.length
    eligible_count := rows.countP (fun r => decide (r.decision = .ELIGIBLE))
    ineligible_count := rows.countP (fun r => decide (r.decision = .INELIGIBLE))
    uncertain_count := rows.countP (fun r => decide (r.decision = .UNCERTAIN))
    results := rows }

/-- Modelled from the spec: the outcome of the explanation collaborator
(spec section 4.4) — either text, or a GenerationError. -/
inductive ExplanationOutcome where
  | ok (text : String)
  | failed
deriving DecidableEq, Repr

/-- Modelled from the spec: the engine treats a collaborator failure as
soft — on success the text is attached, on failure the decision is
delivered with the explanation simply absent (spec sections 4.4 and 7). -/
def attachExplanation (r : EligibilityResult)
    (o : ExplanationOutcome) : EligibilityResult :=
  match o with
  | .ok text => { r with ai_explanation := some text }
  | .failed => r

/-- A single-patient screening followed by the optional explanation step
(spec section 2 data flow). -/
def screenWithExplanation (t : TrialDef) (p : PatientRec)
    (o : ExplanationOutcome) : EligibilityResult :=
  attachExplanation (screen t p) o

/-!
Section: Frontend data model and API client

Translated from `frontend/src/types/index.ts` and
`frontend/src/services/api.ts`.
-/

/-- The `Patient` interface from `types/index.ts`: optional scalar fields,
mandatory (possibly empty) medication / comorbidity lists. -/
structure Patient where
  patient_id : String
  age : Option Int
  gender : Option String
  diagnosis : Option String
  diagnosis_date : Option String
  HbA1c : Option ℚ
  eGFR : Option ℚ
  creatinine : Option ℚ
  current_medications : List String
  comorbidities : List String
  pregnancy_status : Option String
  clinical_notes : Option String
deriving DecidableEq, Repr

/-- The `emptyPatient` constant of `PatientForm.tsx`, restricted to the
fields that matter for parsing (numeric fields unset, lists empty). -/
def emptyPatient : Patient :=
  { patient_id := ""
    age := none
    gender := none
    diagnosis := none
    diagnosis_date := none
    HbA1c := none
    eGFR := none
    creatinine := none
    current_medications := []
    comorbidities := []
    pregnancy_status := none
    clinical_notes := none }

/-- The request body built by `batchScreen` in `services/api.ts`:
`{trial_id, patients, generate_ai_explanation}`. -/
structure BatchScreenPayload where
  trial_id : String
  patients : List Patient
  generate_ai_explanation : Bool
deriving DecidableEq, Repr

/-- The default of the `generateAI` parameter of `batchScreen` in
`services/api.ts` (`generateAI: boolean = false`). -/
def batchScreenDefaultGenerateAI : Bool := false

/-- The default of the `generateAI` parameter of `screenPatient` in
`services/api.ts` (`generateAI: boolean = true`). -/
def screenPatientDefaultGenerateAI : Bool := true

/-- Function `batchScreen` in `services/api.ts`, as the payload it posts to
`/screening/batch`. -/
def batchScreenPayload (trialId : String) (patients : List Patient)
    (generateAI : Bool) : BatchScreenPayload :=
  { trial_id := trialId
    patients := patients
    generate_ai_explanation := generateAI }

/-- Function `handleProcessBatch` in `BatchUpload.tsx` invokes
`batchScreen(trialId, patients, false)`. -/
def handleProcessBatchPayload (trialId : String)
    (patients : List Patient) : BatchScreenPayload :=
  batchScreenPayload trialId patients false

/-!
Section: JavaScript string primitives

Models of the JavaScript operations the frontend parsing code relies on:
`String.prototype.trim`, `parseFloat` / `parseInt` on plain decimal text,
the `x || y` falsiness coercion on strings and numbers, and
`split(sep).map(trim).filter(Boolean)`.
-/

/-- JavaScript whitespace as used by `trim` (the characters occurring in
this code base's inputs: space, tab, newline, carriage return). -/
def isJsWS (c : Char) : Bool :=
  c = ' ' || c = '\t' || c = '\n' || c = '\r'

/-- JavaScript `String.prototype.trim` on the character list: drop whitespace from
both ends. -/
def jsTrimChars (l : List Char) : List Char :=
  (((l.dropWhile isJsWS).reverse).dropWhile isJsWS).reverse

/-- JavaScript `String.prototype.trim`. -/
def jsTrimStr (s : String) : String :=
  String.mk (jsTrimChars s.data)

/-- Value of a digit run (most significant first). -/
def digitsToNat (ds : List Char) : Nat :=
  ds.foldl (fun acc c => 10 * acc + (c.toNat - '0'.toNat)) 0

/-- JavaScript `parseFloat` on the decimal fragment appearing in clinical
CSV cells: optional sign, an integer part and an optional fraction part,
ignoring trailing garbage; no leading digits or dot-digits at all means
`NaN`, modelled as `none`. -/
def jsParseFloat (s : String) : Option ℚ :=
  let cs := s.data
  let signed : Int × List Char :=
    match cs with
    | '-' :: t => (-1, t)
    | '+' :: t => (1, t)
    | _ => (1, cs)
  let intPart := signed.2.takeWhile Char.isDigit
  let rest := signed.2.dropWhile Char.isDigit
  let fracPart :=
    match rest with
    | '.' :: t => t.takeWhile Char.isDigit
    | _ => []
  if intPart.isEmpty && fracPart.isEmpty then
    none
  else
    some (mkRat
      (signed.1 *
        ((digitsToNat intPart * 10 ^ fracPart.length + digitsToNat fracPart : Nat) : Int))
      (10 ^ fracPart.length))

/-- JavaScript `parseInt` (radix 10) on decimal text: optional sign and a
digit run, ignoring everything after it; no digits means `NaN` (`none`). -/
def jsParseInt (s : String) : Option Int :=
  let cs := s.data
  let signed : Int × List Char :=
    match cs with
    | '-' :: t => (-1, t)
    | '+' :: t => (1, t)
    | _ => (1, cs)
  let intPart := signed.2.takeWhile Char.isDigit
  if intPart.isEmpty then
    none
  else
    some (signed.1 * (digitsToNat intPart : Int))

/-- The `parseFloat(value) || undefined` coercion of `parseCSV` in
`BatchUpload.tsx`: `NaN` and `0` are falsy, so both collapse to
`undefined`. -/
def jsNumOrUndef (o : Option ℚ) : Option ℚ :=
  match o with
  | none => none
  | some v => if v = 0 then none else some v

/-- The `parseInt(value) || undefined` coercion of `parseCSV` in
`BatchUpload.tsx`. -/
def jsIntOrUndef (o : Option Int) : Option Int :=
  match o with
  | none => none
  | some v => if v = 0 then none else some v

/-- The `a || b` JavaScript idiom on strings (only `""` is falsy). -/
def jsOrString (a b : String) : String :=
  if a = "" then b else a

/-- The `a || b` idiom where `a` may also be absent (`undefined`). -/
def jsOrOpt (a : Option String) (b : String) : String :=
  match a with
  | none => b
  | some s => if s = "" then b else s

/-- JavaScript `split` on a single separator character: every occurrence
of the separator opens a new chunk, and the empty string yields `[""]`. -/
def splitChar (sep : Char) : List Char → List (List Char)
  | [] => [[]]
  | c :: t =>
      let r := splitChar sep t
      if c = sep then [] :: r
      else (c :: r.headD []) :: r.tail

/-- JavaScript `split` on a single-character separator, at the string level. -/
def jsSplitStr (sep : Char) (v : String) : List String :=
  (splitChar sep v.data).map String.mk

/-- The idiom `value.split(sep).map(x => x.trim()).filter(Boolean)`, the list-field
splitter of `PatientForm.tsx` (`handleSubmit`, comma) and of `parseCSV`
in `BatchUpload.tsx` (semicolon). -/
def jsSplitTrimFilter (sep : Char) (v : String) : List String :=
  ((jsSplitStr sep v).map jsTrimStr).filter (fun x => x ≠ "")

/-!
Section: CSV and JSON batch parsing (`BatchUpload.tsx`)
-/

/-- The synthesized patient id `P${i}` used when an id cell or field is
falsy. -/
def synthesizedId (i : Nat) : String :=
  "P" ++ toString i

/-- One step of the `headers.forEach((header, idx) => ...)` switch of
`parseCSV` in `BatchUpload.tsx`: trim the cell, skip it when falsy, else
assign the field selected by the (lowercased) header. -/
def applyCSVField (p : Patient) (header : String) (cell : String) : Patient :=
  if jsTrimStr cell = "" then p
  else if header = "age" then
    { p with age := jsIntOrUndef (jsParseInt (jsTrimStr cell)) }
  else if header = "gender" then
    { p with gender := some (jsTrimStr cell) }
  else if header = "diagnosis" then
    { p with diagnosis := some (jsTrimStr cell) }
  else if header = "diagnosis_date" then
    { p with diagnosis_date := some (jsTrimStr cell) }
  else if header = "hba1c" then
    { p with HbA1c := jsNumOrUndef (jsParseFloat (jsTrimStr cell)) }
  else if header = "egfr" then
    { p with eGFR := jsNumOrUndef (jsParseFloat (jsTrimStr cell)) }
  else if header = "creatinine" then
    { p with creatinine := jsNumOrUndef (jsParseFloat (jsTrimStr cell)) }
  else if header = "current_medications" || header = "medications" then
    { p with current_medications := jsSplitTrimFilter ';' (jsTrimStr cell) }
  else if header = "comorbidities" then
    { p with comorbidities := jsSplitTrimFilter ';' (jsTrimStr cell) }
  else if header = "pregnancy_status" then
    { p with pregnancy_status := some (jsTrimStr cell) }
  else if header = "clinical_notes" || header = "notes" then
    { p with clinical_notes := some (jsTrimStr cell) }
  else p

/-- The `forEach` loop of `parseCSV` over the header list, pairing each
header with the cell of the same index (an absent cell reads as the empty
string, which the loop skips exactly as `values[idx]?.trim()` being falsy
does). -/
def applyCSVFieldsFrom (values : List String) :
    Patient → Nat → List String → Patient
  | p, _, [] => p
  | p, idx, h :: t =>
      applyCSVFieldsFrom values (applyCSVField p h (values.getD idx "")) (idx + 1) t

/-- One data row of `parseCSV`: start from an empty patient whose
`patient_id` is the raw id cell or, when that cell is falsy, `P${i}`
(`i` being the 1-based line index), then run the header loop. -/
def mkCSVPatient (headers values : List String) (pidIdx i : Nat) : Patient :=
  applyCSVFieldsFrom values
    { emptyPatient with
        patient_id := jsOrString (values.getD pidIdx "") (synthesizedId i) }
    0 headers

/-- All-blank-cells test of `parseCSV`
(`values.length === 0 || values.every(v => !v.trim())`). -/
def blankRow (values : List String) : Bool :=
  values.all (fun v => jsTrimStr v == "")

/-- The data-row loop of `parseCSV` (`for (let i = 1; ...)`) over
already-split rows, carrying the line index: all-blank rows are skipped,
every other row yields exactly one patient, in file order. -/
def parseCSVRows (headers : List String) (pidIdx : Nat) :
    List (List String) → Nat → List Patient
  | [], _ => []
  | vals :: rest, i =>
      if blankRow vals then
        parseCSVRows headers pidIdx rest (i + 1)
      else
        mkCSVPatient headers vals pidIdx i :: parseCSVRows headers pidIdx rest (i + 1)

/-- Function `parseCSVLine` of `BatchUpload.tsx`: split one line on commas outside
double quotes, dropping the quote characters themselves. -/
def parseCSVLine (line : String) : List String :=
  let st := line.data.foldl
    (fun (st : List String × List Char × Bool) c =>
      if c = '"' then
        (st.1, st.2.1, !st.2.2)
      else if c = ',' && !st.2.2 then
        (st.1 ++ [String.mk st.2.1], [], st.2.2)
      else
        (st.1, st.2.1 ++ [c], st.2.2))
    ([], [], false)
  st.1 ++ [String.mk st.2.1]

/-- Function `parseCSV` of `BatchUpload.tsx`: trim the content, split into lines,
require a header row plus at least one data row and a patient-id column,
then run the data-row loop from line index 1. Errors are thrown in the
source and modelled as `none`. -/
def parseCSV (content : String) : Option (List Patient) :=
  let lines := jsSplitStr '\n' (jsTrimStr content)
  if lines.length < 2 then none
  else
    let headers := (jsSplitStr ',' (lines.headD "")).map
      (fun h => strToLower (jsTrimStr h))
    match headers.findIdx? (fun h =>
        h == "patient_id" || h == "patientid" || h == "id") with
    | none => none
    | some pidIdx =>
        some (parseCSVRows headers pidIdx ((lines.drop 1).map parseCSVLine) 1)

/-- One element of the JSON array accepted by `parseJSON` in
`BatchUpload.tsx`: every field may be absent. -/
structure JSONEntry where
  patient_id : Option String
  age : Option Int
  gender : Option String
  diagnosis : Option String
  diagnosis_date : Option String
  HbA1c : Option ℚ
  eGFR : Option ℚ
  creatinine : Option ℚ
  current_medications : Option (List String)
  comorbidities : Option (List String)
  pregnancy_status : Option String
  clinical_notes : Option String
deriving DecidableEq, Repr

/-- A `JSONEntry` with every field absent. -/
def emptyJSONEntry : JSONEntry :=
  { patient_id := none
    age := none
    gender := none
    diagnosis := none
    diagnosis_date := none
    HbA1c := none
    eGFR := none
    creatinine := none
    current_medications := none
    comorbidities := none
    pregnancy_status := none
    clinical_notes := none }

/-- The per-entry mapping of `parseJSON` in `BatchUpload.tsx`:
`patient_id: p.patient_id || P${idx + 1}`, lists defaulted to `[]`. -/
def jsonToPatient (idx : Nat) (e : JSONEntry) : Patient :=
  { patient_id := jsOrOpt e.patient_id (synthesizedId (idx + 1))
    age := e.age
    gender := e.gender
    diagnosis := e.diagnosis
    diagnosis_date := e.diagnosis_date
    HbA1c := e.HbA1c
    eGFR := e.eGFR
    creatinine := e.creatinine
    current_medications := e.current_medications.getD []
    comorbidities := e.comorbidities.getD []
    pregnancy_status := e.pregnancy_status
    clinical_notes := e.clinical_notes }

/-- The indexed `parsed.map((p, idx) => ...)` of `parseJSON`, carrying the
running index. -/
def parseJSONFrom : Nat → List JSONEntry → List Patient
  | _, [] => []
  | i, e :: t => jsonToPatient i e :: parseJSONFrom (i + 1) t

/-- Function `parseJSON` of `BatchUpload.tsx` on an already-decoded array. -/
def parseJSONList (es : List JSONEntry) : List Patient :=
  parseJSONFrom 0 es

/-!
Section: Patient form submission (`PatientForm.tsx`)
-/

/-- Form-mode `handleSubmit` of `PatientForm.tsx`: the submitted patient
carries the comma-separated, trimmed, non-empty entries of the medication
and comorbidity text inputs. -/
def handleSubmitPatient (patient : Patient)
    (medications comorbidities : String) : Patient :=
  { patient with
      current_medications := jsSplitTrimFilter ',' medications
      comorbidities := jsSplitTrimFilter ',' comorbidities }

/-!
Section: Sample data

A small concrete trial and patients mirroring the documented reference
dataset (trial DM2-2024-001; HbA1c inclusion band, pregnancy exclusion),
used by the witness theorems.
-/

/-- Inclusion criterion: HbA1c in the band 7.0-10.0. -/
def sampleCriterionHbA1c : CriterionDefinition :=
  { id := "inc-hba1c"
    text := "HbA1c between 7.0 and 10.0"
    field := "HbA1c"
    kind := .RANGE
    min := some 7
    max := some 10
    value := none
    contains := []
    excludes := [] }

/-- Exclusion criterion: pregnancy. -/
def sampleCriterionPregnancy : CriterionDefinition :=
  { id := "exc-preg"
    text := "currently pregnant"
    field := "pregnancy_status"
    kind := .VALUE
    min := none
    max := none
    value := some "Pregnant"
    contains := []
    excludes := [] }

/-- A trial with one inclusion and one exclusion criterion. -/
def sampleTrial : TrialDef :=
  { id := "DM2-2024-001"
    name := "Type 2 Diabetes Phase III"
    inclusion_criteria := [sampleCriterionHbA1c]
    exclusion_criteria := [sampleCriterionPregnancy] }

/-- A patient meeting every criterion. -/
def samplePatientGood : PatientRec :=
  { patient_id := "P001"
    fields := [("HbA1c", .num 8), ("pregnancy_status", .str "Not pregnant")] }

/-- A patient with HbA1c missing. -/
def samplePatientMissing : PatientRec :=
  { patient_id := "P008"
    fields := [("pregnancy_status", .str "Not pregnant")] }

/-!
Section: Claim theorems
-/

/-- Claim C2, auxiliary: every batch row carries one of the three
decisions, so the three tallies partition the produced sequence. -/
theorem countP_decision_partition (rows : List BatchRow) :
    rows.countP (fun r => decide (r.decision = .ELIGIBLE)) +
      rows.countP (fun r => decide (r.decision = .INELIGIBLE)) +
      rows.countP (fun r => decide (r.decision = .UNCERTAIN)) = rows.length := by
  induction rows with
  | nil => rfl
  | cons a l ih =>
    simp only [List.countP_cons, List.length_cons]
    cases h : a.decision <;> simp [h] <;> omega

/-- Claim C2: for every batch screening over an ordered input list, the
result sequence preserves input order (row ids and decisions are the
per-index images of the input), `total_patients` equals the input count,
each aggregate count equals the tally of that decision in the produced
sequence, and the three counts sum to `total_patients`. -/
theorem claim_C2_batch_invariants (t : TrialDef) (ps : List PatientRec) :
    (runBatch t ps).results.map (fun r => r.patient_id)
        = ps.map (fun p => p.patient_id) ∧
    (runBatch t ps).results.map (fun r => r.decision)
        = ps.map (fun p => (screen t p).decision) ∧
    (runBatch t ps).total_patients = ps.length ∧
    (runBatch t ps).results.length = ps.length ∧
    (runBatch t ps).eligible_count
        = (runBatch t ps).results.countP (fun r => decide (r.decision = .ELIGIBLE)) ∧
    (runBatch t ps).ineligible_count
        = (runBatch t ps).results.countP (fun r => decide (r.decision = .INELIGIBLE)) ∧
    (runBatch t ps).uncertain_count
        = (runBatch t ps).results.countP (fun r => decide (r.decision = .UNCERTAIN)) ∧
    (runBatch t ps).eligible_count + (runBatch t ps).ineligible_count
        + (runBatch t ps).uncertain_count = (runBatch t ps).total_patients :=
  ⟨by simp [runBatch, batchRowFor, List.map_map, Function.comp],
   by simp [runBatch, batchRowFor, List.map_map, Function.comp],
   rfl,
   by simp [runBatch],
   rfl, rfl, rfl,
   by
     show (ps.map (fun p => batchRowFor t p)).countP _ +
         (ps.map (fun p => batchRowFor t p)).countP _ +
         (ps.map (fun p => batchRowFor t p)).countP _ = ps.length
     rw [countP_decision_partition]
     simp⟩

/-- Claim C1, auxiliary: a criterion whose kind is not the
exclusion-specific `EXCLUDES` evaluates, as an inclusion criterion, to one
of `MET`, `NOT_MET`, `UNKNOWN`. -/
theorem inclusion_status_range (c : CriterionDefinition) (v : Option Value)
    (hk : c.kind ≠ .EXCLUDES) :
    evaluateCriterion true c v = .MET ∨ evaluateCriterion true c v = .NOT_MET ∨
      evaluateCriterion true c v = .UNKNOWN := by
  unfold evaluateCriterion
  cases v with
  | none => simp
  | some w =>
    cases hck : c.kind with
    | RANGE => cases w <;> simp <;> split <;> simp
    | VALUE =>
      cases w <;> simp
      cases c.value with
      | none => simp
      | some target => simp only []; split <;> simp
    | CONTAINS => cases w <;> simp <;> split <;> simp_all
    | EXCLUDES => exact absurd hck hk

/-- Claim C1, auxiliary: a criterion whose kind is not the
inclusion-specific `CONTAINS` evaluates, as an exclusion criterion, to one
of `EXCLUDES`, `CLEAR`, `UNKNOWN`. -/
theorem exclusion_status_range (c : CriterionDefinition) (v : Option Value)
    (hk : c.kind ≠ .CONTAINS) :
    evaluateCriterion false c v = .EXCLUDES ∨
      evaluateCriterion false c v = .CLEAR ∨
      evaluateCriterion false c v = .UNKNOWN := by
  unfold evaluateCriterion
  cases v with
  | none => simp
  | some w =>
    cases hck : c.kind with
    | RANGE => cases w <;> simp <;> split <;> simp
    | VALUE =>
      cases w <;> simp
      cases c.value with
      | none => simp
      | some target => simp only []; split <;> simp
    | CONTAINS => exact absurd hck hk
    | EXCLUDES => cases w <;> simp <;> split <;> simp_all

/-- Claim C1, auxiliary: `missing_data` is empty exactly when no criterion
of the trial evaluated to `UNKNOWN`. -/
theorem missingData_eq_nil_iff (t : TrialDef) (p : PatientRec) :
    missingData t p = [] ↔
      (∀ c ∈ t.inclusion_criteria, evalStatus true c p ≠ .UNKNOWN) ∧
      (∀ c ∈ t.exclusion_criteria, evalStatus false c p ≠ .UNKNOWN) := by
  unfold missingData
  rw [List.append_eq_nil, List.map_eq_nil_iff, List.map_eq_nil_iff,
    List.filter_eq_nil_iff, List.filter_eq_nil_iff]
  simp

/-- Claim C1, auxiliary: the Boolean disqualification test of the
aggregator holds exactly when some inclusion result is `NOT_MET` or some
exclusion result is `EXCLUDES`. -/
theorem disqualified_iff (incl excl : List CriterionResult) :
    (incl.any (fun r => decide (r.status = .NOT_MET))
        || excl.any (fun r => decide (r.status = .EXCLUDES))) = true ↔
      ((∃ r ∈ incl, r.status = .NOT_MET) ∨ (∃ r ∈ excl, r.status = .EXCLUDES)) := by
  simp [List.any_eq_true]

/-- Claim C1: the aggregated decision follows the strict first-match
priority. For every screening: (1) any `NOT_MET` inclusion result or
`EXCLUDES` exclusion result forces `INELIGIBLE`, even with simultaneously
non-empty `missing_data`; (2) with no such disqualification, non-empty
`missing_data` forces `UNCERTAIN`; (3) otherwise the decision is
`ELIGIBLE`, and then every inclusion result is `MET` and every exclusion
result is `CLEAR` (given each criterion carries a kind usable on its
list). -/
theorem claim_C1_aggregation_priority (t : TrialDef) (p : PatientRec)
    (hki : ∀ c ∈ t.inclusion_criteria, c.kind ≠ .EXCLUDES)
    (hke : ∀ c ∈ t.exclusion_criteria, c.kind ≠ .CONTAINS) :
    (((∃ r ∈ (screen t p).inclusion_results, r.status = .NOT_MET) ∨
        (∃ r ∈ (screen t p).exclusion_results, r.status = .EXCLUDES)) →
      (screen t p).decision = .INELIGIBLE) ∧
    ((¬ ((∃ r ∈ (screen t p).inclusion_results, r.status = .NOT_MET) ∨
        (∃ r ∈ (screen t p).exclusion_results, r.status = .EXCLUDES))) →
      (screen t p).missing_data ≠ [] →
      (screen t p).decision = .UNCERTAIN) ∧
    ((¬ ((∃ r ∈ (screen t p).inclusion_results, r.status = .NOT_MET) ∨
        (∃ r ∈ (screen t p).exclusion_results, r.status = .EXCLUDES))) →
      (screen t p).missing_data = [] →
      (screen t p).decision = .ELIGIBLE ∧
      (∀ r ∈ (screen t p).inclusion_results, r.status = .MET) ∧
      (∀ r ∈ (screen t p).exclusion_results, r.status = .CLEAR)) := by
  have hdec : (screen t p).decision =
      aggregateDecision (inclusionResults t p) (exclusionResults t p)
        (missingData t p) := rfl
  have hincl : (screen t p).inclusion_results = inclusionResults t p := rfl
  have hexcl : (screen t p).exclusion_results = exclusionResults t p := rfl
  have hmiss : (screen t p).missing_data = missingData t p := rfl
  rw [hdec, hincl, hexcl, hmiss]
  refine ⟨?_, ?_, ?_⟩
  · intro h
    unfold aggregateDecision
    rw [if_pos ((disqualified_iff _ _).mpr h)]
  · intro hnd hm
    unfold aggregateDecision
    rw [if_neg, if_neg]
    · rwa [Ne, ← List.isEmpty_iff] at hm
    · intro hc
      exact hnd ((disqualified_iff _ _).mp hc)
  · intro hnd hm
    have hnodis : ¬ (((inclusionResults t p).any
        (fun r => decide (r.status = .NOT_MET))
          || (exclusionResults t p).any
        (fun r => decide (r.status = .EXCLUDES))) = true) := by
      intro hc
      exact hnd ((disqualified_iff _ _).mp hc)
    have hunk := (missingData_eq_nil_iff t p).mp hm
    refine ⟨?_, ?_, ?_⟩
    · unfold aggregateDecision
      rw [if_neg hnodis, if_pos]
      rw [List.isEmpty_iff]
      exact hm
    · intro r hr
      obtain ⟨c, hc, rfl⟩ := List.mem_map.mp hr
      have hrange := inclusion_status_range c (lookupField p c.field) (hki c hc)
      have hstat : (criterionResult true c p).status = evalStatus true c p := rfl
      rcases hrange with h | h | h
      · exact h
      · exact absurd (Or.inl ⟨criterionResult true c p,
          List.mem_map.mpr ⟨c, hc, rfl⟩, h⟩) hnd
      · exact absurd h (hunk.1 c hc)
    · intro r hr
      obtain ⟨c, hc, rfl⟩ := List.mem_map.mp hr
      have hrange := exclusion_status_range c (lookupField p c.field) (hke c hc)
      rcases hrange with h | h | h
      · exact absurd (Or.inr ⟨criterionResult false c p,
          List.mem_map.mpr ⟨c, hc, rfl⟩, h⟩) hnd
      · exact h
      · exact absurd h (hunk.2 c hc)

/-- Witness for claim C1: the sample trial applied to the fully satisfying
sample patient, yielding `ELIGIBLE` with all results `MET`/`CLEAR`. -/
theorem claim_C1_witness :
    (screen sampleTrial samplePatientGood).decision = .ELIGIBLE ∧
    (∀ r ∈ (screen sampleTrial samplePatientGood).inclusion_results,
      r.status = .MET) ∧
    (∀ r ∈ (screen sampleTrial samplePatientGood).exclusion_results,
      r.status = .CLEAR) :=
  (claim_C1_aggregation_priority sampleTrial samplePatientGood
    (by decide) (by decide)).2.2 (by decide) (by decide)

/-- Claim C3: a criterion whose patient field is absent, or whose present
value has the wrong shape for the criterion kind (e.g. non-numeric in a
`RANGE` field), evaluates to `UNKNOWN` — for inclusion and exclusion usage
alike — and any criterion of the trial evaluating to `UNKNOWN` contributes
its field name to the decision's `missing_data`; the evaluator is a total
function, so no default is substituted and no fatal error is raised. -/
theorem claim_C3_missing_data_unknown (isInclusion : Bool)
    (c : CriterionDefinition) (p : PatientRec) :
    (lookupField p c.field = none → evalStatus isInclusion c p = .UNKNOWN) ∧
    (∀ v, lookupField p c.field = some v → typeMatches c.kind v = false →
      evalStatus isInclusion c p = .UNKNOWN) ∧
    (∀ t : TrialDef, c ∈ t.inclusion_criteria →
      evalStatus true c p = .UNKNOWN →
      c.field ∈ (screen t p).missing_data) ∧
    (∀ t : TrialDef, c ∈ t.exclusion_criteria →
      evalStatus false c p = .UNKNOWN →
      c.field ∈ (screen t p).missing_data) := by
  refine ⟨?_, ?_, ?_, ?_⟩
  · intro h
    unfold evalStatus evaluateCriterion
    rw [h]
  · intro v hv hmis
    unfold evalStatus evaluateCriterion
    rw [hv]
    cases hk : c.kind <;> cases v <;> simp_all [typeMatches]
  · intro t hc hu
    show c.field ∈ missingData t p
    unfold missingData
    refine List.mem_append_left _ (List.mem_map.mpr ⟨c, ?_, rfl⟩)
    exact List.mem_filter.mpr ⟨hc, by simp [hu]⟩
  · intro t hc hu
    show c.field ∈ missingData t p
    unfold missingData
    refine List.mem_append_right _ (List.mem_map.mpr ⟨c, ?_, rfl⟩)
    exact List.mem_filter.mpr ⟨hc, by simp [hu]⟩

/-- Witness for claim C3: the sample inclusion criterion against the
patient with HbA1c absent, and against a patient carrying a string where a
number is required. -/
theorem claim_C3_witness :
    evalStatus true sampleCriterionHbA1c samplePatientMissing = .UNKNOWN ∧
    evalStatus true sampleCriterionHbA1c
      { patient_id := "P009", fields := [("HbA1c", .str "high")] } = .UNKNOWN ∧
    "HbA1c" ∈ (screen sampleTrial samplePatientMissing).missing_data :=
  ⟨(claim_C3_missing_data_unknown true sampleCriterionHbA1c
      samplePatientMissing).1 (by decide),
   (claim_C3_missing_data_unknown true sampleCriterionHbA1c
      { patient_id := "P009", fields := [("HbA1c", .str "high")] }).2.1
      (.str "high") (by decide) (by decide),
   (claim_C3_missing_data_unknown true sampleCriterionHbA1c
      samplePatientMissing).2.2.1 sampleTrial (by decide) (by decide)⟩

/-- The exclusion-triggering reading asserted by claim C4 for a `RANGE`
criterion: the logical OR of the individual bound checks (stated from the
claim's words, for comparison with the evaluator). -/
def claimedExclTriggerOR (c : CriterionDefinition) (q : ℚ) : Bool :=
  (match c.min with
   | none => false
   | some m => decide (m ≤ q)) ||
  (match c.max with
   | none => false
   | some M => decide (q ≤ M))

/-- A two-sided `RANGE` exclusion band 1.0-5.0. -/
def bandCriterion : CriterionDefinition :=
  { id := "exc-band"
    text := "value in the dangerous band 1-5"
    field := "f"
    kind := .RANGE
    min := some 1
    max := some 5
    value := none
    contains := []
    excludes := [] }

/-- Counterexample for claim C4: for the two-sided exclusion band 1-5 and
the value 7, the OR of the bound checks holds (`1 ≤ 7`), so the claim's
"exclusion triggering is the logical OR of the bound checks" demands
`EXCLUDES`; the evaluator, following the spec's primary rule "`EXCLUDES`
iff the value is within the defined band", yields `CLEAR`. -/
theorem claim_C4_counterexample :
    claimedExclTriggerOR bandCriterion 7 = true ∧
    evaluateCriterion false bandCriterion (some (.num 7)) = .CLEAR ∧
    evaluateCriterion false bandCriterion (some (.num 7)) ≠ .EXCLUDES := by
  decide

/-- Claim C4 as amended: for a `RANGE` criterion on a present numeric
value, bounds are inclusive; inclusion usage yields `MET` iff the value is
within bounds and `NOT_MET` otherwise; exclusion usage yields `EXCLUDES`
iff the value is within the defined band and `CLEAR` otherwise; with both
bounds set, being within the band is the logical AND of the two bound
checks — for exclusion triggering just as for inclusion satisfaction — so
a single violated bound suffices to fail inclusion (or to clear the
exclusion band), and each criterion yields exactly one status. -/
theorem claim_C4_range_semantics (c : CriterionDefinition) (q : ℚ)
    (hk : c.kind = .RANGE) :
    (evaluateCriterion true c (some (.num q)) = .MET ↔
      withinBounds c.min c.max q = true) ∧
    (evaluateCriterion true c (some (.num q)) = .NOT_MET ↔
      withinBounds c.min c.max q = false) ∧
    (evaluateCriterion false c (some (.num q)) = .EXCLUDES ↔
      withinBounds c.min c.max q = true) ∧
    (evaluateCriterion false c (some (.num q)) = .CLEAR ↔
      withinBounds c.min c.max q = false) ∧
    (∀ lo hi, c.min = some lo → c.max = some hi →
      (withinBounds c.min c.max q = true ↔ lo ≤ q ∧ q ≤ hi)) ∧
    (∀ lo, c.min = some lo → q < lo →
      evaluateCriterion true c (some (.num q)) = .NOT_MET) ∧
    (∀ hi, c.max = some hi → hi < q →
      evaluateCriterion true c (some (.num q)) = .NOT_MET) := by
  have heval : ∀ b : Bool, evaluateCriterion b c (some (.num q)) =
      if withinBounds c.min c.max q then
        (if b then CStatus.MET else .EXCLUDES)
      else
        (if b then CStatus.NOT_MET else .CLEAR) := by
    intro b
    unfold evaluateCriterion
    rw [hk]
  refine ⟨?_, ?_, ?_, ?_, ?_, ?_, ?_⟩
  · rw [heval]; cases h : withinBounds c.min c.max q <;> simp
  · rw [heval]; cases h : withinBounds c.min c.max q <;> simp
  · rw [heval]; cases h : withinBounds c.min c.max q <;> simp
  · rw [heval]; cases h : withinBounds c.min c.max q <;> simp
  · intro lo hi hlo hhi
    unfold withinBounds
    rw [hlo, hhi]
    simp
  · intro lo hlo hq
    rw [heval, if_neg]
    · simp
    · unfold withinBounds
      rw [hlo]
      simp [not_le.mpr hq]
  · intro hi hhi hq
    rw [heval, if_neg]
    · simp
    · unfold withinBounds
      rw [hhi]
      simp [not_le.mpr hq]

/-- Witness for claim C4 (amended) at the sample HbA1c band 7-10: the
documented scenario HbA1c = 11.2 violates the upper bound and fails
inclusion. -/
theorem claim_C4_witness :
    evaluateCriterion true sampleCriterionHbA1c (some (.num (mkRat 112 10)))
        = .NOT_MET ∧
    evaluateCriterion true sampleCriterionHbA1c (some (.num 8)) = .MET :=
  ⟨(claim_C4_range_semantics sampleCriterionHbA1c (mkRat 112 10) rfl).2.2.2.2.2.2
      10 rfl (by decide),
   ((claim_C4_range_semantics sampleCriterionHbA1c 8 rfl).1).mpr (by decide)⟩

/-- Claim C5: the evaluator is deterministic — equal (trial, patient)
inputs always yield the same per-criterion result sets and the same
screening result; the model is a pure function with no state, I/O or
randomness, and carries no timestamp. -/
theorem claim_C5_evaluator_deterministic (t₁ t₂ : TrialDef)
    (p₁ p₂ : PatientRec) (ht : t₁ = t₂) (hp : p₁ = p₂) :
    inclusionResults t₁ p₁ = inclusionResults t₂ p₂ ∧
    exclusionResults t₁ p₁ = exclusionResults t₂ p₂ ∧
    screen t₁ p₁ = screen t₂ p₂ := by
  subst ht; subst hp; exact ⟨rfl, rfl, rfl⟩

/-- Witness for claim C5 at the sample trial and patient. -/
theorem claim_C5_witness :
    screen sampleTrial samplePatientGood = screen sampleTrial samplePatientGood :=
  (claim_C5_evaluator_deterministic sampleTrial sampleTrial
    samplePatientGood samplePatientGood rfl rfl).2.2

/-- Claim C6: explanation failure is soft — whatever the collaborator
outcome, the delivered result exists and agrees with the bare screening on
decision, criterion results and missing data; on failure the explanation
field is simply absent, which is a valid result. -/
theorem claim_C6_explanation_failure_soft (t : TrialDef) (p : PatientRec)
    (o : ExplanationOutcome) :
    (screenWithExplanation t p o).decision = (screen t p).decision ∧
    (screenWithExplanation t p o).inclusion_results
        = (screen t p).inclusion_results ∧
    (screenWithExplanation t p o).exclusion_results
        = (screen t p).exclusion_results ∧
    (screenWithExplanation t p o).missing_data = (screen t p).missing_data ∧
    (screenWithExplanation t p .failed).ai_explanation = none := by
  cases o <;>
    simp [screenWithExplanation, attachExplanation, screen]

/-- Claim C7: explanation generation defaults to skipped in batch mode —
`batchScreen`'s `generateAI` parameter defaults to `false`, the batch
upload flow passes `false` explicitly, and opting in stays available
through the parameter (the single-patient client defaults to `true`). -/
theorem claim_C7_batch_explanation_defaults :
    batchScreenDefaultGenerateAI = false ∧
    screenPatientDefaultGenerateAI = true ∧
    (∀ (tid : String) (ps : List Patient),
      handleProcessBatchPayload tid ps = batchScreenPayload tid ps false) ∧
    (∀ (tid : String) (ps : List Patient),
      (handleProcessBatchPayload tid ps).generate_ai_explanation = false) ∧
    (∀ (tid : String) (ps : List Patient) (b : Bool),
      (batchScreenPayload tid ps b).generate_ai_explanation = b) :=
  ⟨rfl, rfl, fun _ _ => rfl, fun _ _ => rfl, fun _ _ _ => rfl⟩

/-- Claim C8: in CSV batch parsing, a numeric cell whose trimmed text
parses to `NaN` or to `0` is coerced to `undefined` by the
`parse...(value) || undefined` idiom, so the resulting patient lacks the
field — for `hba1c`, `egfr`, `creatinine` (parseFloat) and `age`
(parseInt) alike. In particular a recorded measurement of exactly 0 is
submitted as missing. -/
theorem claim_C8_zero_numeric_dropped (p : Patient) (cell : String) :
    (p.HbA1c = none →
      (jsParseFloat (jsTrimStr cell) = none ∨
        jsParseFloat (jsTrimStr cell) = some 0) →
      (applyCSVField p "hba1c" cell).HbA1c = none) ∧
    (p.eGFR = none →
      (jsParseFloat (jsTrimStr cell) = none ∨
        jsParseFloat (jsTrimStr cell) = some 0) →
      (applyCSVField p "egfr" cell).eGFR = none) ∧
    (p.creatinine = none →
      (jsParseFloat (jsTrimStr cell) = none ∨
        jsParseFloat (jsTrimStr cell) = some 0) →
      (applyCSVField p "creatinine" cell).creatinine = none) ∧
    (p.age = none →
      (jsParseInt (jsTrimStr cell) = none ∨
        jsParseInt (jsTrimStr cell) = some 0) →
      (applyCSVField p "age" cell).age = none) := by
  refine ⟨?_, ?_, ?_, ?_⟩ <;>
    · intro hp h
      unfold applyCSVField
      by_cases he : jsTrimStr cell = ""
      · simp [he, hp]
      · rcases h with h | h <;> simp [he, jsNumOrUndef, jsIntOrUndef, h]

/-- Witness for claim C8: the literal cell "0" and a non-numeric cell both
leave the numeric field absent. -/
theorem claim_C8_witness :
    (applyCSVField emptyPatient "hba1c" "0").HbA1c = none ∧
    (applyCSVField emptyPatient "hba1c" "N/A").HbA1c = none ∧
    (applyCSVField emptyPatient "age" "0").age = none :=
  ⟨(claim_C8_zero_numeric_dropped emptyPatient "0").1 rfl (Or.inr (by decide)),
   (claim_C8_zero_numeric_dropped emptyPatient "N/A").1 rfl (Or.inl (by decide)),
   (claim_C8_zero_numeric_dropped emptyPatient "0").2.2.2 rfl
     (Or.inr (by decide))⟩

/-- Claim C9, auxiliary: the header-switch step never writes
`patient_id`. -/
theorem applyCSVField_patient_id (p : Patient) (h c : String) :
    (applyCSVField p h c).patient_id = p.patient_id := by
  delta applyCSVField
  by_cases h0 : jsTrimStr c = ""
  · rw [if_pos h0]
  rw [if_neg h0]
  by_cases h1 : h = "age"
  · rw [if_pos h1]
  rw [if_neg h1]
  by_cases h2 : h = "gender"
  · rw [if_pos h2]
  rw [if_neg h2]
  by_cases h3 : h = "diagnosis"
  · rw [if_pos h3]
  rw [if_neg h3]
  by_cases h4 : h = "diagnosis_date"
  · rw [if_pos h4]
  rw [if_neg h4]
  by_cases h5 : h = "hba1c"
  · rw [if_pos h5]
  rw [if_neg h5]
  by_cases h6 : h = "egfr"
  · rw [if_pos h6]
  rw [if_neg h6]
  by_cases h7 : h = "creatinine"
  · rw [if_pos h7]
  rw [if_neg h7]
  by_cases h8 : (decide (h = "current_medications")
      || decide (h = "medications")) = true
  · rw [if_pos h8]
  rw [if_neg h8]
  by_cases h9 : h = "comorbidities"
  · rw [if_pos h9]
  rw [if_neg h9]
  by_cases h10 : h = "pregnancy_status"
  · rw [if_pos h10]
  rw [if_neg h10]
  by_cases h11 : (decide (h = "clinical_notes") || decide (h = "notes")) = true
  · rw [if_pos h11]
  rw [if_neg h11]

/-- Claim C9, auxiliary: the whole header loop never writes
`patient_id`. -/
theorem applyCSVFieldsFrom_patient_id (values : List String) (hs : List String) :
    ∀ (p : Patient) (idx : Nat),
      (applyCSVFieldsFrom values p idx hs).patient_id = p.patient_id := by
  induction hs with
  | nil => intro p idx; rfl
  | cons h t ih =>
    intro p idx
    show (applyCSVFieldsFrom values
      (applyCSVField p h (values.getD idx "")) (idx + 1) t).patient_id = _
    rw [ih, applyCSVField_patient_id]

/-- Claim C9, auxiliary: a CSV row's `patient_id` is the raw id cell,
falling back to the synthesized `P${i}` when that cell is empty. -/
theorem mkCSVPatient_patient_id (headers values : List String) (pidIdx i : Nat) :
    (mkCSVPatient headers values pidIdx i).patient_id
      = jsOrString (values.getD pidIdx "") (synthesizedId i) := by
  unfold mkCSVPatient
  rw [applyCSVFieldsFrom_patient_id]

/-- Claim C9, auxiliary: synthesized ids are never empty. -/
theorem synthesizedId_ne_empty (i : Nat) : synthesizedId i ≠ "" := by
  intro h
  have hd := congrArg String.data h
  rw [synthesizedId] at hd
  rw [String.data_append] at hd
  simp at hd

/-- Claim C9, auxiliary: the `a || b` fallback is non-empty whenever the
fallback is. -/
theorem jsOrString_ne_empty (a b : String) (hb : b ≠ "") :
    jsOrString a b ≠ "" := by
  unfold jsOrString
  split
  · exact hb
  · assumption

/-- Claim C9, auxiliary: every patient the CSV row loop produces is some
row's `mkCSVPatient`. -/
theorem mem_parseCSVRows (headers : List String) (pidIdx : Nat) :
    ∀ (rows : List (List String)) (i : Nat) (p : Patient),
      p ∈ parseCSVRows headers pidIdx rows i →
      ∃ vals j, p = mkCSVPatient headers vals pidIdx j := by
  intro rows
  induction rows with
  | nil =>
    intro i p h
    simp [parseCSVRows] at h
  | cons vals rest ih =>
    intro i p h
    rw [parseCSVRows] at h
    split at h
    · exact ih (i + 1) p h
    · rcases List.mem_cons.mp h with h | h
      · exact ⟨vals, i, h⟩
      · exact ih (i + 1) p h

/-- Claim C9, auxiliary: the CSV row loop is exactly "keep every
non-all-blank row, in file order, with its line index". -/
theorem parseCSVRows_eq_filter_map (headers : List String) (pidIdx : Nat) :
    ∀ (rows : List (List String)) (i : Nat),
      parseCSVRows headers pidIdx rows i =
        ((rows.enumFrom i).filter (fun pr => !blankRow pr.2)).map
          (fun pr => mkCSVPatient headers pr.2 pidIdx pr.1) := by
  intro rows
  induction rows with
  | nil => intro i; rfl
  | cons vals rest ih =>
    intro i
    rw [parseCSVRows]
    show _ = ((((i, vals) :: rest.enumFrom (i + 1)).filter
      (fun pr => !blankRow pr.2)).map
        (fun pr => mkCSVPatient headers pr.2 pidIdx pr.1))
    rw [List.filter_cons]
    cases hb : blankRow vals <;> simp [hb, ih (i + 1)]

/-- Claim C9, auxiliary: length of the JSON mapping. -/
theorem parseJSONFrom_length (es : List JSONEntry) :
    ∀ i : Nat, (parseJSONFrom i es).length = es.length := by
  induction es with
  | nil => intro i; rfl
  | cons e t ih =>
    intro i
    show (jsonToPatient i e :: parseJSONFrom (i + 1) t).length = t.length + 1
    rw [List.length_cons, ih (i + 1)]

/-- Claim C9, auxiliary: every JSON-parsed patient is some entry's image. -/
theorem mem_parseJSONFrom (es : List JSONEntry) :
    ∀ (i : Nat) (p : Patient), p ∈ parseJSONFrom i es →
      ∃ j e, p = jsonToPatient j e := by
  induction es with
  | nil =>
    intro i p h
    simp [parseJSONFrom] at h
  | cons e t ih =>
    intro i p h
    rcases List.mem_cons.mp h with h | h
    · exact ⟨i, e, h⟩
    · exact ih (i + 1) p h

/-- Claim C9, auxiliary: a JSON-parsed patient's id is never empty. -/
theorem jsonToPatient_id_ne_empty (j : Nat) (e : JSONEntry) :
    (jsonToPatient j e).patient_id ≠ "" := by
  show jsOrOpt e.patient_id (synthesizedId (j + 1)) ≠ ""
  unfold jsOrOpt
  cases e.patient_id with
  | none => exact synthesizedId_ne_empty (j + 1)
  | some s =>
    simp only []
    split
    · exact synthesizedId_ne_empty (j + 1)
    · assumption

/-- Claim C9, auxiliary: the `k`-th JSON-parsed patient is the image of
the `k`-th entry under the running index. -/
theorem parseJSONFrom_getD (es : List JSONEntry) :
    ∀ (i k : Nat), k < es.length →
      (parseJSONFrom i es).getD k emptyPatient
        = jsonToPatient (i + k) (es.getD k emptyJSONEntry) := by
  induction es with
  | nil =>
    intro i k hk
    simp at hk
  | cons e t ih =>
    intro i k hk
    cases k with
    | zero => rfl
    | succ k =>
      show (parseJSONFrom (i + 1) t).getD k emptyPatient = _
      rw [ih (i + 1) k (by simpa using hk)]
      congr 1
      omega

/-- Claim C9: every patient produced by batch-file parsing has a non-empty
`patient_id`; a CSV row whose id cell is empty receives the synthesized
`P${rowIndex}`; the CSV loop keeps exactly the non-all-blank rows in file
order (so no row is dropped for a missing id); the JSON mapping preserves
length and order, fills in `P${index+1}` for an absent id, and also never
yields an empty id. -/
theorem claim_C9_parsed_ids_nonempty :
    (∀ (headers : List String) (pidIdx : Nat) (rows : List (List String))
        (i : Nat) (p : Patient),
      p ∈ parseCSVRows headers pidIdx rows i → p.patient_id ≠ "") ∧
    (∀ (headers values : List String) (pidIdx i : Nat),
      values.getD pidIdx "" = "" →
      (mkCSVPatient headers values pidIdx i).patient_id = synthesizedId i) ∧
    (∀ (headers : List String) (pidIdx : Nat) (rows : List (List String))
        (i : Nat),
      parseCSVRows headers pidIdx rows i =
        ((rows.enumFrom i).filter (fun pr => !blankRow pr.2)).map
          (fun pr => mkCSVPatient headers pr.2 pidIdx pr.1)) ∧
    (∀ es : List JSONEntry, (parseJSONList es).length = es.length) ∧
    (∀ (es : List JSONEntry) (p : Patient),
      p ∈ parseJSONList es → p.patient_id ≠ "") ∧
    (∀ (es : List JSONEntry) (k : Nat), k < es.length →
      (es.getD k emptyJSONEntry).patient_id = none →
      ((parseJSONList es).getD k emptyPatient).patient_id
        = synthesizedId (k + 1)) := by
  refine ⟨?_, ?_, ?_, ?_, ?_, ?_⟩
  · intro headers pidIdx rows i p hp
    obtain ⟨vals, j, rfl⟩ := mem_parseCSVRows headers pidIdx rows i p hp
    rw [mkCSVPatient_patient_id]
    exact jsOrString_ne_empty _ _ (synthesizedId_ne_empty j)
  · intro headers values pidIdx i hv
    rw [mkCSVPatient_patient_id, hv]
    rfl
  · exact parseCSVRows_eq_filter_map
  · intro es
    exact parseJSONFrom_length es 0
  · intro es p hp
    obtain ⟨j, e, rfl⟩ := mem_parseJSONFrom es 0 p hp
    exact jsonToPatient_id_ne_empty j e
  · intro es k hk hid
    show ((parseJSONFrom 0 es).getD k emptyPatient).patient_id = _
    rw [parseJSONFrom_getD es 0 k hk]
    show jsOrOpt (es.getD k emptyJSONEntry).patient_id
      (synthesizedId (0 + k + 1)) = _
    rw [hid]
    show synthesizedId (0 + k + 1) = _
    rw [Nat.zero_add]

/-- Witness for claim C9: a CSV row with an empty id cell, inside a file
whose second row is all-blank, and a JSON entry without an id. -/
theorem claim_C9_witness :
    (mkCSVPatient ["patient_id", "age"] ["", "30"] 0 1).patient_id ≠ "" ∧
    (mkCSVPatient ["patient_id", "age"] ["", "30"] 0 1).patient_id
        = synthesizedId 1 ∧
    ((parseJSONList [emptyJSONEntry]).getD 0 emptyPatient).patient_id
        = synthesizedId 1 :=
  ⟨claim_C9_parsed_ids_nonempty.1 ["patient_id", "age"] 0
      [["", "30"], [" ", " "], ["X", "4"]] 1
      (mkCSVPatient ["patient_id", "age"] ["", "30"] 0 1) (by decide),
   claim_C9_parsed_ids_nonempty.2.1 ["patient_id", "age"] ["", "30"] 0 1
      (by decide),
   claim_C9_parsed_ids_nonempty.2.2.2.2.2 [emptyJSONEntry] 0 (by decide)
      (by decide)⟩

/-- Claim C10, auxiliary: the first element surviving `dropWhile` fails
the predicate. -/
theorem head_dropWhile_not (q : Char → Bool) :
    ∀ (l : List Char) (c : Char),
      (l.dropWhile q).head? = some c → q c = false := by
  intro l
  induction l with
  | nil =>
    intro c h
    simp at h
  | cons a t ih =>
    intro c h
    rw [List.dropWhile_cons] at h
    split at h
    · exact ih c h
    · rw [List.head?_cons, Option.some.injEq] at h
      subst h
      simp_all

/-- Claim C10, auxiliary: `dropWhile` keeps a suffix, so when its result
is non-empty its last element is the last element of the input. -/
theorem getLast_dropWhile (q : Char → Bool) :
    ∀ l : List Char, l.dropWhile q ≠ [] →
      (l.dropWhile q).getLast? = l.getLast? := by
  intro l
  induction l with
  | nil => intro h; rfl
  | cons a t ih =>
    intro h
    rw [List.dropWhile_cons] at h ⊢
    split
    · have ht : t.dropWhile q ≠ [] := by
        simp_all
      have htne : t ≠ [] := by
        intro hc
        subst hc
        exact ht rfl
      rw [ih ht]
      obtain ⟨b, t2, rfl⟩ := List.exists_cons_of_ne_nil htne
      rfl
    · rfl

/-- Claim C10, auxiliary: the head of a trimmed character list is not
whitespace. -/
theorem jsTrimChars_head (l : List Char) (c : Char)
    (h : (jsTrimChars l).head? = some c) : isJsWS c = false := by
  unfold jsTrimChars at h
  rw [List.head?_reverse] at h
  have hne : ((l.dropWhile isJsWS).reverse).dropWhile isJsWS ≠ [] := by
    intro hc
    rw [hc] at h
    simp at h
  rw [getLast_dropWhile isJsWS _ hne, List.getLast?_reverse] at h
  exact head_dropWhile_not isJsWS l c h

/-- Claim C10, auxiliary: the last element of a trimmed character list is
not whitespace. -/
theorem jsTrimChars_getLast (l : List Char) (c : Char)
    (h : (jsTrimChars l).getLast? = some c) : isJsWS c = false := by
  unfold jsTrimChars at h
  rw [List.getLast?_reverse] at h
  exact head_dropWhile_not isJsWS _ c h

/-- Claim C10, auxiliary: every string the split-trim-filter pipeline
produces is non-empty, and neither starts nor ends with whitespace. -/
theorem mem_jsSplitTrimFilter (sep : Char) (v : String) (x : String)
    (hx : x ∈ jsSplitTrimFilter sep v) :
    x ≠ "" ∧
    (∀ c, x.data.head? = some c → isJsWS c = false) ∧
    (∀ c, x.data.getLast? = some c → isJsWS c = false) := by
  unfold jsSplitTrimFilter at hx
  obtain ⟨hmem, hne⟩ := List.mem_filter.mp hx
  refine ⟨by simpa using hne, ?_, ?_⟩
  · obtain ⟨t, _, rfl⟩ := List.mem_map.mp hmem
    intro c h
    exact jsTrimChars_head t.data c h
  · obtain ⟨t, _, rfl⟩ := List.mem_map.mp hmem
    intro c h
    exact jsTrimChars_getLast t.data c h

/-- Claim C10: in a form-mode submission, every entry of the submitted
`current_medications` and `comorbidities` lists is a non-empty string
without leading or trailing whitespace (the comma-separated entries of the
inputs, trimmed, with empty entries removed), and empty inputs yield empty
lists rather than a list containing the empty string. -/
theorem claim_C10_form_lists_trimmed (patient : Patient)
    (medications comorbidities : String) :
    (∀ x ∈ (handleSubmitPatient patient medications comorbidities).current_medications,
      x ≠ "" ∧
      (∀ c, x.data.head? = some c → isJsWS c = false) ∧
      (∀ c, x.data.getLast? = some c → isJsWS c = false)) ∧
    (∀ x ∈ (handleSubmitPatient patient medications comorbidities).comorbidities,
      x ≠ "" ∧
      (∀ c, x.data.head? = some c → isJsWS c = false) ∧
      (∀ c, x.data.getLast? = some c → isJsWS c = false)) ∧
    (handleSubmitPatient patient "" "").current_medications = [] ∧
    (handleSubmitPatient patient "" "").comorbidities = [] := by
  refine ⟨?_, ?_, ?_, ?_⟩
  · intro x hx
    exact mem_jsSplitTrimFilter ',' medications x hx
  · intro x hx
    exact mem_jsSplitTrimFilter ',' comorbidities x hx
  · show jsSplitTrimFilter ',' "" = []
    decide
  · show jsSplitTrimFilter ',' "" = []
    decide

/-- Witness for claim C10 on the concrete input " Metformin , ,Aspirin ":
the submitted list is exactly ["Metformin", "Aspirin"], whose first entry
is non-empty and trimmed. -/
theorem claim_C10_witness :
    (handleSubmitPatient emptyPatient " Metformin , ,Aspirin " "").current_medications
        = ["Metformin", "Aspirin"] ∧
    "Metformin" ≠ "" ∧
    (handleSubmitPatient emptyPatient "" "").current_medications = [] :=
  ⟨by decide,
   ((claim_C10_form_lists_trimmed emptyPatient " Metformin , ,Aspirin " "").1
      "Metformin" (by decide)).1,
   (claim_C10_form_lists_trimmed emptyPatient "x" "y").2.2.1⟩

end ClinicalScreening
